import Mathlib

/-!
Shallow embedding of `pymetamap/SubprocessBackend.py` (the `extract_concepts`
method of `SubprocessBackend`) and proofs about it.

The embedding models the Python function as a pure function from a request
(the keyword arguments of `extract_concepts`) and a world (the environment:
the names handed out for temporary files, the captured stdout of the child
process, the text found in the output file, and fault-injection switches for
each I/O operation) to a trace recording the outcome (returned value or
raised exception), which staged files were created and which still exist at
the end, whether the caller-supplied input file was opened/closed, and
whether termination of the child process was requested.
-/

/-- The Python exceptions that `extract_concepts` can raise in the model:
`ValueError` (explicit `raise` statements), `UnboundLocalError` (reference to
a local variable that was never assigned), and any I/O or process error
(`OSError` and friends), abstracted by a message. -/
inductive PyErr where
  | valueError (msg : String)
  | unboundLocalError (name : String)
  | ioError (msg : String)
deriving DecidableEq, Repr

/-- The keyword arguments of `extract_concepts`
(`SubprocessBackend.py`, lines 26-38), with the Python defaults.
`mm_data_version=False` is modelled as `none`, a supplied string as `some`;
`max_prune=None` likewise, and the four source/semantic-type lists. -/
structure Request where
  sentences : Option (List String) := none
  ids : Option (List String) := none
  composite_phrase : Nat := 4
  filename : Option String := none
  file_format : String := "sldi"
  allow_acronym_variants : Bool := false
  word_sense_disambiguation : Bool := false
  allow_large_n : Bool := false
  no_derivational_variants : Bool := false
  derivational_variants : Bool := false
  ignore_word_order : Bool := false
  unique_acronym_variants : Bool := false
  prefer_multiple_concepts : Bool := false
  ignore_stop_phrases : Bool := false
  compute_all_mappings : Bool := false
  mm_data_version : Option String := none
  max_prune : Option Int := none
  exclude_sources : Option (List String) := none
  restrict_sources : Option (List String) := none
  restrict_sts : Option (List String) := none
  exclude_sts : Option (List String) := none
  dir_temp : Option String := none
deriving DecidableEq, Repr

/-- The environment of one call: the unique names the platform hands out for
the two temporary files, the captured stdout of the child process, the text
the output file holds when it is read back, and one fault-injection switch
per I/O operation performed by `extract_concepts` (each models that operation
raising an `OSError`-like exception). -/
structure World where
  tmpIn : String := "tmp_input"
  tmpOut : String := "tmp_output"
  stdout : String := ""
  outputContent : String := ""
  mkTempInFails : Bool := false
  openInputFails : Bool := false
  mkTempOutFails : Bool := false
  writeFails : Bool := false
  popenFails : Bool := false
  readFails : Bool := false
deriving DecidableEq, Repr

/-- Modelled from the spec: the corpus container (out-of-scope collaborator,
`from .Concept import Corpus`) offers "build from a sequence of output
lines"; it is modelled as the sequence of lines itself. -/
structure Corpus where
  loaded : List String
deriving DecidableEq, Repr

/-- Modelled from the spec: `Corpus.load` builds the corpus from the ordered
sequence of output-file lines (`SubprocessBackend.py` line 175 delegates to
it). -/
def Corpus.load (lines : List String) : Corpus := ⟨lines⟩

deriving instance DecidableEq for Except

/-- Everything one call to `extract_concepts` did: the returned pair or the
exception that escaped, the staged temporary files created during the call,
the staged temporary files still existing when the call ends, whether a
caller-supplied input file was opened and whether it was closed again,
whether termination of the child process was requested, and the raw bytes
serialized into the staged input file (when sentences were supplied and the
writes succeeded). -/
structure CallTrace where
  outcome : Except PyErr (Corpus × Option String)
  created : List String := []
  finalFiles : List String := []
  inputOpened : Bool := false
  inputClosed : Bool := false
  terminateRequested : Bool := false
  stagedRaw : Option String := none
deriving DecidableEq, Repr

/-- The single-quote character `'` (code 39). -/
def squote : Char := Char.ofNat 39

/-- The double-quote character `"` (code 34). -/
def dquote : Char := Char.ofNat 34

/-- The backslash character (code 92). -/
def bslash : Char := Char.ofNat 92

/-- The newline character (code 10). -/
def nlChar : Char := Char.ofNat 10

/-- The carriage-return character (code 13). -/
def crChar : Char := Char.ofNat 13

/-- The horizontal-tab character (code 9). -/
def tabChar : Char := Char.ofNat 9

/-- The vertical-bar character `|` (code 124). -/
def pipeChar : Char := Char.ofNat 124

/-- Lower-case hex digit for a value below 16, as Python's `\xNN` escapes
print it. -/
def hexDigitChar (n : Nat) : Char :=
  if n < 10 then Char.ofNat (48 + n) else Char.ofNat (87 + n)

/-- The quote character Python's `repr` picks for a string: a single quote,
unless the string contains a single quote and no double quote. -/
def pyQuote (s : String) : Char :=
  if s.data.contains squote && !(s.data.contains dquote) then dquote else squote

/-- Model of how Python's `repr` renders one character of a string inside
the chosen quote `q`: backslash and the active quote are backslash-escaped,
newline / carriage-return / tab become `\n` / `\r` / `\t`, the remaining
ASCII control characters (and DEL) become `\xNN` with lower-case hex, and
everything else is kept literally.  (Python would additionally escape
non-printable characters above ASCII; those are kept literal here.) -/
def pyEscChar (q : Char) (c : Char) : List Char :=
  if c = bslash then [bslash, bslash]
  else if c = q then [bslash, q]
  else if c = nlChar then [bslash, Char.ofNat 110]
  else if c = crChar then [bslash, Char.ofNat 114]
  else if c = tabChar then [bslash, Char.ofNat 116]
  else if c.toNat < 32 || c.toNat == 127 then
    [bslash, Char.ofNat 120, hexDigitChar (c.toNat / 16), hexDigitChar (c.toNat % 16)]
  else [c]

/-- Model of Python's `repr` of a string (the `{0!r}` conversion used when
serializing sentences, `SubprocessBackend.py` lines 99 and 102), as a
character list: the chosen quote, the escaped characters, the quote again. -/
def pyReprChars (s : String) : List Char :=
  pyQuote s :: ((s.data.map (pyEscChar (pyQuote s))).flatten ++ [pyQuote s])

/-- Model of Python's `repr` of a string, as a string. -/
def pyRepr (s : String) : String := ⟨pyReprChars s⟩

/-- The lines serialized into the staged input file
(`SubprocessBackend.py` lines 96-102): with identifiers, `zip(ids,
sentences)` pairs each identifier with a sentence (silently truncating to
the shorter sequence) and each line is `repr(identifier)|repr(sentence)`;
without identifiers each line is `repr(sentence)`. -/
def stagedLines (sentences : List String) (idl : Option (List String)) : List String :=
  match idl with
  | some l => (l.zip sentences).map (fun p => pyRepr p.1 ++ String.singleton pipeChar ++ pyRepr p.2)
  | none => sentences.map (fun s => pyRepr s)

/-- The full text written to the staged input file: each serialized line
followed by a newline (the trailing `\n` of the format strings on lines 99
and 102). -/
def stagedContent (sentences : List String) (idl : Option (List String)) : String :=
  ⟨((stagedLines sentences idl).map (fun ln => ln.data ++ [nlChar])).flatten⟩

/-- The sldi/sldiID selector flag (`SubprocessBackend.py` lines 133-137):
the identifier-bearing selector if `ids` was supplied, or if the caller
asked for the `sldiID` file format while reading from a pre-built file;
otherwise the plain selector. -/
def selectorFlag (r : Request) : String :=
  if r.ids.isSome || (r.file_format == "sldiID" && r.sentences.isNone) then "--sldiID"
  else "--sldi"

/-- One optional list-valued flag (`-e`, `-R`, `-k`, `-J`): when the list is
supplied, a single token made of the flag text (which carries a trailing
space) followed by the comma-joined values, mirroring
`command.append('-e ' + ','.join(exclude_sources))` etc. on lines 139-150. -/
def listFlag (flag : String) (o : Option (List String)) : List String :=
  match o with
  | some l => [flag ++ String.intercalate "," l]
  | none => []

/-- The optional pruning flag: `command.append('--prune ' + str(max_prune))`
(line 152), again a single token with an embedded space. -/
def pruneFlag (o : Option Int) : List String :=
  match o with
  | some n => ["--prune " ++ toString n]
  | none => []

/-- Command construction after the data-version flag
(`SubprocessBackend.py` lines 113-152): one `command.append` per active
boolean option, the selector flag, then the optional value-carrying
single-token flags. -/
def buildCommandRest (r : Request) (command : List String) : List String :=
  let command := command ++ (if r.word_sense_disambiguation then ["-y"] else [])
  let command := command ++ (if r.allow_large_n then ["-l"] else [])
  let command := command ++ (if r.no_derivational_variants then ["-d"] else [])
  let command := command ++ (if r.derivational_variants then ["-D"] else [])
  let command := command ++ (if r.ignore_word_order then ["-i"] else [])
  let command := command ++ (if r.allow_acronym_variants then ["-a"] else [])
  let command := command ++ (if r.unique_acronym_variants then ["-u"] else [])
  let command := command ++ (if r.prefer_multiple_concepts then ["-Y"] else [])
  let command := command ++ (if r.ignore_stop_phrases then ["-K"] else [])
  let command := command ++ (if r.compute_all_mappings then ["-b"] else [])
  let command := command ++ [selectorFlag r]
  let command := command ++ listFlag "-e " r.exclude_sources
  let command := command ++ listFlag "-R " r.restrict_sources
  let command := command ++ listFlag "-k " r.exclude_sts
  let command := command ++ listFlag "-J " r.restrict_sts
  let command := command ++ pruneFlag r.max_prune
  command

/-- Command construction up to (and excluding) the two file paths
(`SubprocessBackend.py` lines 105-152): the tool path, the fixed `-N` flag,
the composite-phrase flag with its integer value, then - inside the try
block - the data-version flag, whose value is validated here and only here
(an invalid literal raises `ValueError` at line 110, after staging), then
all remaining flags. -/
def buildCommandPre (mm : String) (r : Request) : Except PyErr (List String) :=
  let command := [mm, "-N"]
  let command := command ++ ["-Q"]
  let command := command ++ [toString r.composite_phrase]
  match r.mm_data_version with
  | none => .ok (buildCommandRest r command)
  | some v =>
    if v ∈ (["Base", "USAbase", "NLM"] : List String) then
      .ok (buildCommandRest r (command ++ ["-V"] ++ [v]))
    else
      .error (.valueError "mm_data_version must be Base, USAbase, or NLM.")

/-- The full command vector: the flags followed by the input path and the
output path, in that order (`SubprocessBackend.py` lines 154-155). -/
def buildCommand (mm : String) (r : Request) (inputName outputName : String) :
    Except PyErr (List String) :=
  (buildCommandPre mm r).map (fun command => command ++ [inputName] ++ [outputName])

/-- Python `try/finally`: the finally block always runs; if it raises, its
exception replaces whatever the try block produced. -/
def pyFinally (tryResult : Except PyErr α) (finallyResult : Except PyErr Unit) :
    Except PyErr α :=
  match finallyResult with
  | .error e => .error e
  | .ok _ => tryResult

/-- Whether the literal text `ERROR` occurs in the captured stdout
(`'ERROR' in str(out1)`, line 158).  The Python check runs on the `repr` of
the captured bytes; since `repr` renders ASCII letters literally and its
escape sequences use lower-case hex, the two checks agree. -/
def hasERROR (s : String) : Bool := decide ("ERROR".data <:+: s.data)

/-- Python's ASCII whitespace, as stripped by `bytes.rstrip`. -/
def isPySpace (c : Char) : Bool :=
  c = Char.ofNat 32 || c = tabChar || c = nlChar || c = crChar ||
    c = Char.ofNat 11 || c = Char.ofNat 12

/-- Model of `out1.rstrip()` (line 160): drop trailing ASCII whitespace. -/
def rstrip (s : String) : String :=
  ⟨(s.data.reverse.dropWhile isPySpace).reverse⟩

/-- Model of Python's `str.splitlines` for the line terminators `\n`, `\r`
and `\r\n` (the further exotic Unicode terminators are not modelled); the
accumulator holds the current line reversed. -/
def splitlinesAux : List Char → List Char → List (List Char)
  | [], acc => if acc.isEmpty then [] else [acc.reverse]
  | [c], acc =>
    if c = nlChar then [acc.reverse]
    else if c = crChar then [acc.reverse]
    else [(c :: acc).reverse]
  | c :: c2 :: rest2, acc =>
    if c = nlChar then acc.reverse :: splitlinesAux (c2 :: rest2) []
    else if c = crChar then
      if c2 = nlChar then acc.reverse :: splitlinesAux rest2 []
      else acc.reverse :: splitlinesAux (c2 :: rest2) []
    else splitlinesAux (c2 :: rest2) (c :: acc)

/-- Model of `output.splitlines()` (line 175). -/
def pySplitlines (s : String) : List String :=
  (splitlinesAux s.data []).map (fun l => ⟨l⟩)

/-- The try block of the sentences-based path.  The sentence lines are
written and flushed (lines 96-103), the command vector is built (lines
105-152, raising `ValueError` for an invalid data version), and
`command.append(input_file.name)` succeeds; but
`command.append(output_file.name)` (line 155) raises `UnboundLocalError`,
because on this path the source never assigns `output_file` (it is assigned
only in the `else` branch, lines 88-93).  The try block therefore never
returns normally. -/
def sentencesTry (mm : String) (r : Request) (w : World) :
    Except PyErr (Corpus × Option String) :=
  if w.writeFails then .error (.ioError "input_file.write")
  else
    match buildCommandPre mm r with
    | .error e => .error e
    | .ok _command => .error (.unboundLocalError "output_file")

/-- The sentences-based path of `extract_concepts` (sentences supplied,
filename absent).  A staged input file is created (lines 83-87; no output
file is created on this path).  The finally block (lines 168-173) removes
the staged input file and then evaluates `output_file.name`, which raises
`UnboundLocalError`, replacing whatever the try block produced. -/
def sentencesPath (mm : String) (r : Request) (w : World) (ss : List String) :
    CallTrace :=
  if w.mkTempInFails then
    { outcome := .error (.ioError "NamedTemporaryFile") }
  else
    { outcome := pyFinally (sentencesTry mm r w) (.error (.unboundLocalError "output_file")),
      created := [w.tmpIn],
      finalFiles := [],
      stagedRaw := if w.writeFails then none else some (stagedContent ss r.ids) }

/-- The try block of the filename-based path: build the command (lines
105-155), spawn the child and capture its stdout (lines 156-157), check the
captured text for `ERROR` (terminating the child and recording the
right-stripped text, lines 158-160), then read the output file (line 167).
Produces the output text and the error payload. -/
def filenameTry (mm : String) (r : Request) (w : World) :
    Except PyErr (String × Option String) :=
  match buildCommandPre mm r with
  | .error e => .error e
  | .ok _command =>
    if w.popenFails then .error (.ioError "Popen")
    else
      let error := if hasERROR w.stdout then some (rstrip w.stdout) else none
      if w.readFails then .error (.ioError "output_file.read")
      else .ok (w.outputContent, error)

/-- The filename-based path of `extract_concepts` (filename supplied,
sentences absent).  The caller's file is opened for reading (line 89) and a
staged output file is created (lines 90-93); both happen before the
try/finally guard, so a failure while creating the staged output file
propagates with the caller's file left open.  Otherwise the finally block
closes the caller's file and removes the staged output file, and
`Corpus.load(output.splitlines())` (line 175) produces the returned
concepts. -/
def filenamePath (mm : String) (r : Request) (w : World) : CallTrace :=
  if w.openInputFails then
    { outcome := .error (.ioError "open") }
  else if w.mkTempOutFails then
    { outcome := .error (.ioError "NamedTemporaryFile"), inputOpened := true }
  else
    { outcome := (pyFinally (filenameTry mm r w) (.ok ())).map
        (fun p => (Corpus.load (pySplitlines p.1), p.2)),
      created := [w.tmpOut],
      finalFiles := [],
      inputOpened := true,
      inputClosed := true,
      terminateRequested :=
        (buildCommandPre mm r).toOption.isSome && !w.popenFails && hasERROR w.stdout }

/-- Shallow embedding of `SubprocessBackend.extract_concepts`
(`SubprocessBackend.py` lines 26-176).  The three validation checks on
lines 71-79 run before any file is touched; then the call branches on
whether sentences or a filename were supplied. -/
def extract_concepts (mm : String) (r : Request) (w : World) : CallTrace :=
  if r.allow_acronym_variants && r.unique_acronym_variants then
    { outcome := .error (.valueError
        ("You can" ++ String.singleton squote ++
          "t use both allow_acronym_variants and unique_acronym_variants.")) }
  else if (r.sentences.isSome && r.filename.isSome) ||
      (r.sentences.isNone && r.filename.isNone) then
    { outcome := .error (.valueError
        "You must either pass a list of sentences OR a filename.") }
  else if r.file_format ∉ (["sldi", "sldiID"] : List String) then
    { outcome := .error (.valueError "file_format must be either sldi or sldiID") }
  else
    match r.sentences with
    | some ss => sentencesPath mm r w ss
    | none => filenamePath mm r w

/-- The data-version option is valid when absent or one of the three
recognized literals (`SubprocessBackend.py` line 109). -/
def validDV (r : Request) : Prop :=
  r.mm_data_version ∈ ([none, some "Base", some "USAbase", some "NLM"] : List (Option String))

/-- Numeric value of a lower-case hex digit, as used when decoding a `\xNN`
escape produced by `pyEscChar`. -/
def hexVal (c : Char) : Option Nat :=
  if 48 ≤ c.toNat && c.toNat ≤ 57 then some (c.toNat - 48)
  else if 97 ≤ c.toNat && c.toNat ≤ 102 then some (c.toNat - 97 + 10)
  else none

/-- Decoder for the escaped body of a `pyRepr`-quoted string: reads escaped
characters until the closing quote `q`, returning the decoded characters and
the input remaining after the closing quote. -/
def unreprAux (q : Char) : List Char → Option (List Char × List Char)
  | [] => none
  | c :: rest =>
    if c = q then some ([], rest)
    else if c = bslash then
      match rest with
      | [] => none
      | e :: rest2 =>
        if e = bslash then (unreprAux q rest2).map (fun p => (bslash :: p.1, p.2))
        else if e = squote ∨ e = dquote then
          (unreprAux q rest2).map (fun p => (e :: p.1, p.2))
        else if e = Char.ofNat 110 then (unreprAux q rest2).map (fun p => (nlChar :: p.1, p.2))
        else if e = Char.ofNat 114 then (unreprAux q rest2).map (fun p => (crChar :: p.1, p.2))
        else if e = Char.ofNat 116 then (unreprAux q rest2).map (fun p => (tabChar :: p.1, p.2))
        else if e = Char.ofNat 120 then
          match rest2 with
          | h1 :: h2 :: rest3 =>
            match hexVal h1, hexVal h2 with
            | some a, some b =>
              (unreprAux q rest3).map (fun p => (Char.ofNat (16 * a + b) :: p.1, p.2))
            | _, _ => none
          | _ => none
        else none
    else (unreprAux q rest).map (fun p => (c :: p.1, p.2))

/-- The data-version flag pair as the spec describes it: `-V` followed by the
version literal when a data-version was supplied, nothing otherwise. -/
def dvFlagList (r : Request) : List String :=
  match r.mm_data_version with
  | some v => ["-V", v]
  | none => []

/-- The boolean option flags in the fixed, stable order stated by the spec:
word-sense-disambiguation, large-N, the two derivational-variant flags,
word-order, the two acronym-variant flags, prefer-multiple-concepts,
ignore-stop-phrases, compute-all-mappings. -/
def boolFlagList (r : Request) : List String :=
  (if r.word_sense_disambiguation then ["-y"] else []) ++
    (if r.allow_large_n then ["-l"] else []) ++
    (if r.no_derivational_variants then ["-d"] else []) ++
    (if r.derivational_variants then ["-D"] else []) ++
    (if r.ignore_word_order then ["-i"] else []) ++
    (if r.allow_acronym_variants then ["-a"] else []) ++
    (if r.unique_acronym_variants then ["-u"] else []) ++
    (if r.prefer_multiple_concepts then ["-Y"] else []) ++
    (if r.ignore_stop_phrases then ["-K"] else []) ++
    (if r.compute_all_mappings then ["-b"] else [])

/-- The optional value-carrying single-token flags, in source order:
exclude-sources, restrict-sources, exclude-semantic-types,
restrict-semantic-types, pruning threshold. -/
def valueFlagList (r : Request) : List String :=
  listFlag "-e " r.exclude_sources ++ listFlag "-R " r.restrict_sources ++
    listFlag "-k " r.exclude_sts ++ listFlag "-J " r.restrict_sts ++
    pruneFlag r.max_prune

/-- Decoder for one staged `identifier|sentence` line: a `pyRepr`-quoted
identifier, a literal `|`, a `pyRepr`-quoted sentence, end of line.  Its
existence witnesses that the staged encoding preserves the literal text. -/
def lineDecode (line : String) : Option (String × String) :=
  match line.data with
  | [] => none
  | q1 :: rest =>
    if q1 = squote ∨ q1 = dquote then
      match unreprAux q1 rest with
      | some (d1, b :: q2 :: rest2) =>
        if b = pipeChar ∧ (q2 = squote ∨ q2 = dquote) then
          match unreprAux q2 rest2 with
          | some (d2, []) => some (⟨d1⟩, ⟨d2⟩)
          | _ => none
        else none
      | _ => none
    else none

/-- Normal form of the command-vector prefix: for a valid data version the
construction succeeds and equals the concatenation of the base invocation,
the data-version pair, the boolean flags, the selector and the value
flags. -/
theorem buildCommandPre_eq (mm : String) (r : Request) (h : validDV r) :
    buildCommandPre mm r =
      .ok ([mm, "-N", "-Q", toString r.composite_phrase] ++ dvFlagList r ++
        boolFlagList r ++ [selectorFlag r] ++ valueFlagList r) := by
  rcases hdv : r.mm_data_version with _ | v
  · simp [buildCommandPre, hdv, buildCommandRest, dvFlagList, boolFlagList,
      valueFlagList, List.append_assoc]
  · have hv : v ∈ (["Base", "USAbase", "NLM"] : List String) := by
      simp only [validDV, hdv] at h
      simpa using h
    simp [buildCommandPre, hdv, hv, buildCommandRest, dvFlagList,
      boolFlagList, valueFlagList, List.append_assoc]

/-- Normal form of the full command vector, ending in the input path and the
output path. -/
theorem buildCommand_eq (mm : String) (r : Request) (i o : String) (h : validDV r) :
    buildCommand mm r i o =
      .ok ([mm, "-N", "-Q", toString r.composite_phrase] ++ dvFlagList r ++
        boolFlagList r ++ [selectorFlag r] ++ valueFlagList r ++ [i, o]) := by
  simp [buildCommand, buildCommandPre_eq mm r h, Except.map, List.append_assoc]

/-- A successful command construction forces the data-version option to be
valid. -/
theorem validDV_of_buildCommand (mm : String) (r : Request) (i o : String)
    (c : List String) (h : buildCommand mm r i o = .ok c) : validDV r := by
  rcases hdv : r.mm_data_version with _ | v
  · simp [validDV, hdv]
  · by_cases hv : v ∈ (["Base", "USAbase", "NLM"] : List String)
    · simp only [validDV, hdv]
      simpa using hv
    · exfalso
      simp [buildCommand, buildCommandPre, hdv, hv, Except.map] at h

/-- Membership in a conditional singleton flag block. -/
theorem mem_of_mem_ite_nil {t : String} {b : Prop} [Decidable b] {l : List String}
    (h : t ∈ if b then l else []) : t ∈ l := by
  split at h
  · exact h
  · exact absurd h (List.not_mem_nil t)

/-- `Nat.digitChar` of a value below ten is a decimal digit. -/
theorem digitChar_isDigit (m : Nat) (hm : m < 10) : (Nat.digitChar m).isDigit = true := by
  interval_cases m <;> decide

/-- Every character `Nat.toDigitsCore` emits over base ten is a decimal
digit (given the accumulator already consists of digits). -/
theorem toDigitsCore_digits (f : Nat) :
    ∀ (n : Nat) (ds : List Char), (∀ c ∈ ds, c.isDigit = true) →
      ∀ c ∈ Nat.toDigitsCore 10 f n ds, c.isDigit = true := by
  induction f with
  | zero => intro n ds hds c hc; exact hds c hc
  | succ f ih =>
    intro n ds hds c hc
    rw [Nat.toDigitsCore] at hc
    by_cases hz : n / 10 = 0
    · simp only [hz, if_pos] at hc
      rcases List.mem_cons.mp hc with h | h
      · subst h; exact digitChar_isDigit _ (Nat.mod_lt _ (by norm_num))
      · exact hds c h
    · simp only [hz, if_neg, not_false_iff] at hc
      refine ih (n / 10) (Nat.digitChar (n % 10) :: ds) ?_ c hc
      intro d hd
      rcases List.mem_cons.mp hd with h | h
      · subst h; exact digitChar_isDigit _ (Nat.mod_lt _ (by norm_num))
      · exact hds d h

/-- The decimal rendering of a natural number consists of digits only. -/
theorem natRepr_all_digits (n : Nat) : ∀ c ∈ (toString n).data, c.isDigit = true := by
  intro c hc
  exact toDigitsCore_digits (n + 1) n [] (by intro d hd; cases hd) c hc

/-- The decimal rendering of a natural number never contains a dash. -/
theorem natStr_no_dash (n : Nat) : Char.ofNat 45 ∉ (toString n).data := by
  intro h
  have := natRepr_all_digits n _ h
  exact absurd this (by decide)

/-- Two strings differ when a prefix of the first disagrees with the second
at some position inside the prefix. -/
theorem append_ne_of_getElem (p x t : String) (k : Nat) (hk : k < p.data.length)
    (h : p.data[k]? ≠ t.data[k]?) : p ++ x ≠ t := by
  intro he
  apply h
  rw [← he, String.data_append, List.getElem?_append, if_pos hk]

/-- Tokens contributed by the data-version option. -/
theorem mem_dvFlagList (r : Request) (hdv : validDV r) (t : String)
    (h : t ∈ dvFlagList r) :
    t ∈ (["-V", "Base", "USAbase", "NLM"] : List String) := by
  rcases hv : r.mm_data_version with _ | v
  · simp [dvFlagList, hv] at h
  · simp only [dvFlagList, hv] at h
    rcases List.mem_cons.mp h with h1 | h1
    · simp [h1]
    · have h2 : t = v := by simpa using h1
      subst h2
      simp only [validDV, hv] at hdv
      have h3 : t = "Base" ∨ t = "USAbase" ∨ t = "NLM" := by simpa using hdv
      rcases h3 with h3 | h3 | h3 <;> simp [h3]

/-- Tokens contributed by the boolean option flags. -/
theorem mem_boolFlagList (r : Request) (t : String) (h : t ∈ boolFlagList r) :
    t ∈ (["-y", "-l", "-d", "-D", "-i", "-a", "-u", "-Y", "-K", "-b"] : List String) := by
  simp only [boolFlagList, List.mem_append, or_assoc] at h
  rcases h with h|h|h|h|h|h|h|h|h|h <;>
    · have := mem_of_mem_ite_nil h
      simp only [List.mem_singleton] at this
      simp [this]

/-- Tokens contributed by the value-carrying flags all start with one of the
five flag texts (which carry their trailing space). -/
theorem mem_valueFlagList (r : Request) (t : String) (h : t ∈ valueFlagList r) :
    (∃ x, t = "-e " ++ x) ∨ (∃ x, t = "-R " ++ x) ∨ (∃ x, t = "-k " ++ x) ∨
      (∃ x, t = "-J " ++ x) ∨ (∃ x, t = "--prune " ++ x) := by
  simp only [valueFlagList, List.mem_append, or_assoc] at h
  rcases h with h|h|h|h|h
  · rcases hx : r.exclude_sources with _ | l
    · simp [listFlag, hx] at h
    · simp only [listFlag, hx, List.mem_singleton] at h
      exact Or.inl ⟨_, h⟩
  · rcases hx : r.restrict_sources with _ | l
    · simp [listFlag, hx] at h
    · simp only [listFlag, hx, List.mem_singleton] at h
      exact Or.inr (Or.inl ⟨_, h⟩)
  · rcases hx : r.exclude_sts with _ | l
    · simp [listFlag, hx] at h
    · simp only [listFlag, hx, List.mem_singleton] at h
      exact Or.inr (Or.inr (Or.inl ⟨_, h⟩))
  · rcases hx : r.restrict_sts with _ | l
    · simp [listFlag, hx] at h
    · simp only [listFlag, hx, List.mem_singleton] at h
      exact Or.inr (Or.inr (Or.inr (Or.inl ⟨_, h⟩)))
  · rcases hx : r.max_prune with _ | n
    · simp [pruneFlag, hx] at h
    · simp only [pruneFlag, hx, List.mem_singleton] at h
      exact Or.inr (Or.inr (Or.inr (Or.inr ⟨_, h⟩)))

/-- Exhaustive shape of the tokens of a successfully constructed command
vector. -/
theorem command_token_cases (mm : String) (r : Request) (i o : String) (c : List String)
    (hc : buildCommand mm r i o = .ok c) :
    ∀ t ∈ c, t = mm ∨ t = i ∨ t = o ∨ t = toString r.composite_phrase ∨
      t ∈ (["-N", "-Q", "-V", "Base", "USAbase", "NLM", "-y", "-l", "-d", "-D",
            "-i", "-a", "-u", "-Y", "-K", "-b", "--sldi", "--sldiID"] : List String) ∨
      (∃ x, t = "-e " ++ x) ∨ (∃ x, t = "-R " ++ x) ∨ (∃ x, t = "-k " ++ x) ∨
      (∃ x, t = "-J " ++ x) ∨ (∃ x, t = "--prune " ++ x) := by
  intro t ht
  have hdv := validDV_of_buildCommand mm r i o c hc
  rw [buildCommand_eq mm r i o hdv] at hc
  have hceq := Except.ok.inj hc
  rw [← hceq] at ht
  simp only [List.mem_append, List.mem_cons, List.mem_singleton, List.not_mem_nil,
    or_false, or_assoc] at ht
  rcases ht with h | h | h | h | h | h | h | h | h | h
  · exact Or.inl h
  · simp [h]
  · simp [h]
  · exact Or.inr (Or.inr (Or.inr (Or.inl h)))
  · have := mem_dvFlagList r hdv t h
    simp only [List.mem_cons, List.not_mem_nil, or_false] at this
    rcases this with h2 | h2 | h2 | h2 <;> simp [h2]
  · have := mem_boolFlagList r t h
    simp only [List.mem_cons, List.not_mem_nil, or_false] at this
    rcases this with h2 | h2 | h2 | h2 | h2 | h2 | h2 | h2 | h2 | h2 <;> simp [h2]
  · subst h
    unfold selectorFlag
    split <;> simp
  · have := mem_valueFlagList r t h
    tauto
  · simp [h]
  · simp [h]

/-- Membership in a successfully constructed command vector, split by
component. -/
theorem mem_buildCommand_iff (mm : String) (r : Request) (i o : String) (c : List String)
    (hc : buildCommand mm r i o = .ok c) (t : String) :
    t ∈ c ↔ t = mm ∨ t = "-N" ∨ t = "-Q" ∨ t = toString r.composite_phrase ∨
      t ∈ dvFlagList r ∨ t ∈ boolFlagList r ∨ t = selectorFlag r ∨
      t ∈ valueFlagList r ∨ t = i ∨ t = o := by
  have hdv := validDV_of_buildCommand mm r i o c hc
  rw [buildCommand_eq mm r i o hdv] at hc
  rw [← Except.ok.inj hc]
  simp [List.mem_append, or_assoc]

/-- A token that can be ruled out of every other component is in the command
vector exactly when it is the selector flag. -/
theorem mem_iff_selector (mm : String) (r : Request) (i o : String) (c : List String)
    (hc : buildCommand mm r i o = .ok c) (t0 : String)
    (h1 : t0 ≠ mm) (h2 : t0 ≠ "-N") (h3 : t0 ≠ "-Q")
    (h4 : t0 ≠ toString r.composite_phrase)
    (h5 : t0 ∉ dvFlagList r) (h6 : t0 ∉ boolFlagList r) (h7 : t0 ∉ valueFlagList r)
    (h8 : t0 ≠ i) (h9 : t0 ≠ o) :
    t0 ∈ c ↔ t0 = selectorFlag r := by
  rw [mem_buildCommand_iff mm r i o c hc t0]
  simp [h1, h2, h3, h4, h5, h6, h7, h8, h9]

/-- A token whose second character is a dash and whose third character is an
`s` (both selector flags qualify) is never one of the value-carrying flag
tokens. -/
theorem selector_not_in_valueFlagList (r : Request) (t0 : String)
    (ht1 : t0.data[1]? = some (Char.ofNat 45))
    (ht2 : t0.data[2]? = some (Char.ofNat 115)) :
    t0 ∉ valueFlagList r := by
  intro hm
  rcases mem_valueFlagList r t0 hm with ⟨x, hx⟩ | ⟨x, hx⟩ | ⟨x, hx⟩ | ⟨x, hx⟩ | ⟨x, hx⟩
  · exact append_ne_of_getElem "-e " x t0 1 (by decide) (by rw [ht1]; decide) hx.symm
  · exact append_ne_of_getElem "-R " x t0 1 (by decide) (by rw [ht1]; decide) hx.symm
  · exact append_ne_of_getElem "-k " x t0 1 (by decide) (by rw [ht1]; decide) hx.symm
  · exact append_ne_of_getElem "-J " x t0 1 (by decide) (by rw [ht1]; decide) hx.symm
  · exact append_ne_of_getElem "--prune " x t0 2 (by decide) (by rw [ht2]; decide) hx.symm

/-- C6: the constructed command vector contains the identifier-bearing
selector flag `--sldiID` exactly when an identifier sequence was supplied,
or when the caller requested the `sldiID` file format while reading from a
pre-built file (sentences absent); in every other case it contains the plain
selector flag `--sldi` (and not `--sldiID`), provided the tool path and the
two file paths are not themselves one of the two selector spellings. -/
theorem C6_selector_flag (mm : String) (r : Request) (i o : String) (c : List String)
    (hc : buildCommand mm r i o = .ok c)
    (hmm : mm ∉ (["--sldi", "--sldiID"] : List String))
    (hi : i ∉ (["--sldi", "--sldiID"] : List String))
    (ho : o ∉ (["--sldi", "--sldiID"] : List String)) :
    (("--sldiID" ∈ c) ↔ (r.ids ≠ none ∨ (r.file_format = "sldiID" ∧ r.sentences = none)))
      ∧ (("--sldi" ∈ c) ↔ ¬(r.ids ≠ none ∨ (r.file_format = "sldiID" ∧ r.sentences = none))) := by
  have hdv := validDV_of_buildCommand mm r i o c hc
  have hmm2 : mm ≠ "--sldi" ∧ mm ≠ "--sldiID" := by
    constructor <;> (intro he; exact hmm (by simp [he]))
  have hi2 : i ≠ "--sldi" ∧ i ≠ "--sldiID" := by
    constructor <;> (intro he; exact hi (by simp [he]))
  have ho2 : o ≠ "--sldi" ∧ o ≠ "--sldiID" := by
    constructor <;> (intro he; exact ho (by simp [he]))
  have hcond : (r.ids.isSome || (r.file_format == "sldiID" && r.sentences.isNone)) = true ↔
      (r.ids ≠ none ∨ (r.file_format = "sldiID" ∧ r.sentences = none)) := by
    simp [Option.isSome_iff_ne_none, Option.isNone_iff_eq_none]
  have hsII : ("--sldiID" ∈ c) ↔ "--sldiID" = selectorFlag r := by
    refine mem_iff_selector mm r i o c hc _ (fun he => hmm2.2 he.symm) (by decide) (by decide)
      ?_ ?_ ?_ ?_ (fun he => hi2.2 he.symm) (fun he => ho2.2 he.symm)
    · intro he
      exact natStr_no_dash r.composite_phrase
        (he ▸ (by decide : Char.ofNat 45 ∈ "--sldiID".data))
    · intro hm
      exact absurd (mem_dvFlagList r hdv _ hm) (by decide)
    · intro hm
      exact absurd (mem_boolFlagList r _ hm) (by decide)
    · exact selector_not_in_valueFlagList r _ (by decide) (by decide)
  have hsI : ("--sldi" ∈ c) ↔ "--sldi" = selectorFlag r := by
    refine mem_iff_selector mm r i o c hc _ (fun he => hmm2.1 he.symm) (by decide) (by decide)
      ?_ ?_ ?_ ?_ (fun he => hi2.1 he.symm) (fun he => ho2.1 he.symm)
    · intro he
      exact natStr_no_dash r.composite_phrase
        (he ▸ (by decide : Char.ofNat 45 ∈ "--sldi".data))
    · intro hm
      exact absurd (mem_dvFlagList r hdv _ hm) (by decide)
    · intro hm
      exact absurd (mem_boolFlagList r _ hm) (by decide)
    · exact selector_not_in_valueFlagList r _ (by decide) (by decide)
  by_cases hb : (r.ids.isSome || (r.file_format == "sldiID" && r.sentences.isNone)) = true
  · have hp := hcond.mp hb
    constructor
    · rw [hsII]
      simp [selectorFlag, hb, hp]
    · rw [hsI]
      simp [selectorFlag, hb, hp]
  · have hb2 : (r.ids.isSome || (r.file_format == "sldiID" && r.sentences.isNone)) = false :=
      Bool.eq_false_iff.mpr hb
    have hp : ¬(r.ids ≠ none ∨ (r.file_format = "sldiID" ∧ r.sentences = none)) :=
      fun hp0 => hb (hcond.mpr hp0)
    constructor
    · rw [hsII]
      simp [selectorFlag, hb2, hp]
    · rw [hsI]
      simp [selectorFlag, hb2, hp]

/-- A bare flag spelling (`-e`, `-R`, `-k`, `-J`, `--prune`) without its
attached value never occurs as a token of the command vector, provided the
tool path and the two file paths are not themselves such a spelling. -/
theorem bare_flag_not_mem (mm : String) (r : Request) (i o : String) (c : List String)
    (hc : buildCommand mm r i o = .ok c) (F : String)
    (hF : F ∈ (["-e", "-R", "-k", "-J", "--prune"] : List String))
    (hmm : mm ∉ (["-e", "-R", "-k", "-J", "--prune"] : List String))
    (hi : i ∉ (["-e", "-R", "-k", "-J", "--prune"] : List String))
    (ho : o ∉ (["-e", "-R", "-k", "-J", "--prune"] : List String)) :
    F ∉ c := by
  fin_cases hF <;>
  · intro hm
    rcases command_token_cases mm r i o c hc _ hm with
      h | h | h | h | h | ⟨x, h⟩ | ⟨x, h⟩ | ⟨x, h⟩ | ⟨x, h⟩ | ⟨x, h⟩
    · exact hmm (h ▸ (by decide))
    · exact hi (h ▸ (by decide))
    · exact ho (h ▸ (by decide))
    · exact natStr_no_dash r.composite_phrase (h ▸ (by decide))
    · exact absurd h (by decide)
    · first
      | exact append_ne_of_getElem "-e " x _ 1 (by decide) (by decide) h.symm
      | exact append_ne_of_getElem "-e " x _ 2 (by decide) (by decide) h.symm
    · first
      | exact append_ne_of_getElem "-R " x _ 1 (by decide) (by decide) h.symm
      | exact append_ne_of_getElem "-R " x _ 2 (by decide) (by decide) h.symm
    · first
      | exact append_ne_of_getElem "-k " x _ 1 (by decide) (by decide) h.symm
      | exact append_ne_of_getElem "-k " x _ 2 (by decide) (by decide) h.symm
    · first
      | exact append_ne_of_getElem "-J " x _ 1 (by decide) (by decide) h.symm
      | exact append_ne_of_getElem "-J " x _ 2 (by decide) (by decide) h.symm
    · first
      | exact append_ne_of_getElem "--prune " x _ 1 (by decide) (by decide) h.symm
      | exact append_ne_of_getElem "--prune " x _ 7 (by decide) (by decide) h.symm

/-- C7: each supplied value-carrying option contributes its flag as a single
token with the comma-joined or stringified value concatenated after an
embedded space (e.g. `max_prune = 10` yields the single token `--prune 10`),
and the corresponding bare flag never appears as a separate token, provided
the tool path and the two file paths are not themselves a bare flag
spelling. -/
theorem C7_single_token_value_flags (mm : String) (r : Request) (i o : String)
    (c : List String) (hc : buildCommand mm r i o = .ok c)
    (hmm : mm ∉ (["-e", "-R", "-k", "-J", "--prune"] : List String))
    (hi : i ∉ (["-e", "-R", "-k", "-J", "--prune"] : List String))
    (ho : o ∉ (["-e", "-R", "-k", "-J", "--prune"] : List String)) :
    (∀ n, r.max_prune = some n → ("--prune " ++ toString n) ∈ c ∧ "--prune" ∉ c) ∧
      (∀ l, r.exclude_sources = some l →
        ("-e " ++ String.intercalate "," l) ∈ c ∧ "-e" ∉ c) ∧
      (∀ l, r.restrict_sources = some l →
        ("-R " ++ String.intercalate "," l) ∈ c ∧ "-R" ∉ c) ∧
      (∀ l, r.exclude_sts = some l →
        ("-k " ++ String.intercalate "," l) ∈ c ∧ "-k" ∉ c) ∧
      (∀ l, r.restrict_sts = some l →
        ("-J " ++ String.intercalate "," l) ∈ c ∧ "-J" ∉ c) := by
  refine ⟨fun n hn => ⟨?_, ?_⟩, fun l hl => ⟨?_, ?_⟩, fun l hl => ⟨?_, ?_⟩,
    fun l hl => ⟨?_, ?_⟩, fun l hl => ⟨?_, ?_⟩⟩
  · rw [mem_buildCommand_iff mm r i o c hc]
    have : ("--prune " ++ toString n) ∈ valueFlagList r := by
      simp [valueFlagList, pruneFlag, hn]
    tauto
  · exact bare_flag_not_mem mm r i o c hc _ (by decide) hmm hi ho
  · rw [mem_buildCommand_iff mm r i o c hc]
    have : ("-e " ++ String.intercalate "," l) ∈ valueFlagList r := by
      simp [valueFlagList, listFlag, hl]
    tauto
  · exact bare_flag_not_mem mm r i o c hc _ (by decide) hmm hi ho
  · rw [mem_buildCommand_iff mm r i o c hc]
    have : ("-R " ++ String.intercalate "," l) ∈ valueFlagList r := by
      simp [valueFlagList, listFlag, hl]
    tauto
  · exact bare_flag_not_mem mm r i o c hc _ (by decide) hmm hi ho
  · rw [mem_buildCommand_iff mm r i o c hc]
    have : ("-k " ++ String.intercalate "," l) ∈ valueFlagList r := by
      simp [valueFlagList, listFlag, hl]
    tauto
  · exact bare_flag_not_mem mm r i o c hc _ (by decide) hmm hi ho
  · rw [mem_buildCommand_iff mm r i o c hc]
    have : ("-J " ++ String.intercalate "," l) ∈ valueFlagList r := by
      simp [valueFlagList, listFlag, hl]
    tauto
  · exact bare_flag_not_mem mm r i o c hc _ (by decide) hmm hi ho

/-- C8: for every validated request the boolean option flags appear in the
command vector in the fixed, stable order stated by the spec - data-version,
then word-sense-disambiguation, then large-N, then the two
derivational-variant flags, then word-order, then the two acronym-variant
flags, then prefer-multiple-concepts, then ignore-stop-phrases, then
compute-all-mappings - and the command vector ends with the input path
followed by the output path, in that order. -/
theorem C8_flag_order (mm : String) (r : Request) (i o : String) (h : validDV r) :
    buildCommand mm r i o = .ok
      ([mm, "-N", "-Q", toString r.composite_phrase] ++ dvFlagList r ++
        ((if r.word_sense_disambiguation then ["-y"] else []) ++
          (if r.allow_large_n then ["-l"] else []) ++
          (if r.no_derivational_variants then ["-d"] else []) ++
          (if r.derivational_variants then ["-D"] else []) ++
          (if r.ignore_word_order then ["-i"] else []) ++
          (if r.allow_acronym_variants then ["-a"] else []) ++
          (if r.unique_acronym_variants then ["-u"] else []) ++
          (if r.prefer_multiple_concepts then ["-Y"] else []) ++
          (if r.ignore_stop_phrases then ["-K"] else []) ++
          (if r.compute_all_mappings then ["-b"] else [])) ++
        [selectorFlag r] ++ valueFlagList r ++ [i, o]) := by
  rw [buildCommand_eq mm r i o h]
  simp [boolFlagList, List.append_assoc]

/-- The quote `pyRepr` chooses is one of the two quote characters. -/
theorem pyQuote_cases (s : String) : pyQuote s = squote ∨ pyQuote s = dquote := by
  unfold pyQuote
  split <;> simp

/-- `hexVal` decodes the lower-case hex digits `hexDigitChar` produces. -/
theorem hexVal_hexDigitChar (m : Nat) (hm : m < 16) : hexVal (hexDigitChar m) = some m := by
  have h : ∀ k : Fin 16, hexVal (hexDigitChar k.val) = some k.val := by decide
  exact h ⟨m, hm⟩

/-- Hex digits have code points at or above 32. -/
theorem hexDigitChar_ge32 (m : Nat) (hm : m < 16) : 32 ≤ (hexDigitChar m).toNat := by
  have h : ∀ k : Fin 16, 32 ≤ (hexDigitChar k.val).toNat := by decide
  exact h ⟨m, hm⟩

/-- Every character emitted by the escape function has a code point at or
above 32: control characters (in particular newline and carriage return)
never survive into the serialized form. -/
theorem pyEscChar_ge32 (q : Char) (hq : q = squote ∨ q = dquote) (c : Char) :
    ∀ x ∈ pyEscChar q c, 32 ≤ x.toNat := by
  intro x hx
  unfold pyEscChar at hx
  by_cases h1 : c = bslash
  · simp only [h1, if_pos] at hx
    rcases List.mem_cons.mp hx with h | h
    · subst h; decide
    · have : x = bslash := by simpa using h
      subst this; decide
  · rw [if_neg h1] at hx
    by_cases h2 : c = q
    · simp only [h2, if_pos] at hx
      rcases List.mem_cons.mp hx with h | h
      · subst h; decide
      · have : x = q := by simpa using h
        subst this
        rcases hq with hq | hq <;> (subst hq; decide)
    · rw [if_neg h2] at hx
      by_cases h3 : c = nlChar
      · simp only [h3, if_pos] at hx
        rcases List.mem_cons.mp hx with h | h
        · subst h; decide
        · have : x = Char.ofNat 110 := by simpa using h
          subst this; decide
      · rw [if_neg h3] at hx
        by_cases h4 : c = crChar
        · simp only [h4, if_pos] at hx
          rcases List.mem_cons.mp hx with h | h
          · subst h; decide
          · have : x = Char.ofNat 114 := by simpa using h
            subst this; decide
        · rw [if_neg h4] at hx
          by_cases h5 : c = tabChar
          · simp only [h5, if_pos] at hx
            rcases List.mem_cons.mp hx with h | h
            · subst h; decide
            · have : x = Char.ofNat 116 := by simpa using h
              subst this; decide
          · rw [if_neg h5] at hx
            by_cases h6 : (c.toNat < 32 || c.toNat == 127) = true
            · rw [if_pos h6] at hx
              have hlt : c.toNat / 16 < 16 := by
                rcases Bool.or_eq_true _ _ |>.mp h6 with h7 | h7
                · have h8 : c.toNat < 32 := by simpa using h7
                  omega
                · have h8 : c.toNat = 127 := by simpa using h7
                  omega
              rcases List.mem_cons.mp hx with h | h
              · subst h; decide
              · rcases List.mem_cons.mp h with h | h
                · subst h; decide
                · rcases List.mem_cons.mp h with h | h
                  · subst h
                    exact hexDigitChar_ge32 _ hlt
                  · have : x = hexDigitChar (c.toNat % 16) := by simpa using h
                    subst this
                    exact hexDigitChar_ge32 _ (Nat.mod_lt _ (by norm_num))
            · rw [if_neg h6] at hx
              have : x = c := by simpa using hx
              subst this
              simp only [Bool.or_eq_true, not_or] at h6
              have h7 : ¬ x.toNat < 32 := by
                intro hlt
                exact h6.1 (by simpa using hlt)
              omega

/-- Every character of a `pyRepr`-serialized string has a code point at or
above 32. -/
theorem pyReprChars_ge32 (s : String) : ∀ x ∈ pyReprChars s, 32 ≤ x.toNat := by
  intro x hx
  unfold pyReprChars at hx
  rcases List.mem_cons.mp hx with h | h
  · subst h
    rcases pyQuote_cases s with hq | hq <;> (rw [hq]; decide)
  · rcases List.mem_append.mp h with h | h
    · rcases List.mem_flatten.mp h with ⟨l, hl, hxl⟩
      rcases List.mem_map.mp hl with ⟨c, _, hc⟩
      subst hc
      exact pyEscChar_ge32 (pyQuote s) (pyQuote_cases s) c x hxl
    · have : x = pyQuote s := by simpa using h
      subst this
      rcases pyQuote_cases s with hq | hq <;> (rw [hq]; decide)

/-- C9 ingredient: a serialized sentence contains no embedded unescaped
newline. -/
theorem pyRepr_no_newline (s : String) : nlChar ∉ (pyRepr s).data := by
  intro h
  have := pyReprChars_ge32 s nlChar h
  exact absurd this (by decide)

/-- A serialized `identifier|sentence` line contains neither a newline nor a
carriage return. -/
theorem stagedLines_ge32 (ss : List String) (idl : Option (List String)) :
    ∀ ln ∈ stagedLines ss idl, ∀ x ∈ ln.data, 32 ≤ x.toNat := by
  intro ln hln x hx
  rcases idl with _ | l
  · simp only [stagedLines, List.mem_map] at hln
    rcases hln with ⟨s, _, hs⟩
    subst hs
    exact pyReprChars_ge32 s x hx
  · simp only [stagedLines, List.mem_map] at hln
    rcases hln with ⟨p, _, hp⟩
    subst hp
    rw [String.data_append, String.data_append] at hx
    rcases List.mem_append.mp hx with h | h
    · rcases List.mem_append.mp h with h | h
      · exact pyReprChars_ge32 p.1 x h
      · have : x = pipeChar := by
          simpa [String.singleton] using h
        subst this; decide
    · exact pyReprChars_ge32 p.2 x h

/-- Decoding inverts escaping: one escaped character followed by any tail
decodes to that character followed by the decoding of the tail. -/
theorem unreprAux_esc_step (q : Char) (hq : q = squote ∨ q = dquote) (c : Char) (T : List Char) :
    unreprAux q (pyEscChar q c ++ T) = (unreprAux q T).map (fun p => (c :: p.1, p.2)) := by
  have hbq : ¬ (bslash = q) := by rcases hq with h | h <;> (subst h; decide)
  have hqb : ¬ (q = bslash) := fun h => hbq h.symm
  by_cases h1 : c = bslash
  · subst h1
    have e1 : pyEscChar q bslash = [bslash, bslash] := by simp [pyEscChar]
    rw [e1]
    conv_lhs => rw [unreprAux.eq_def]
    simp [hbq]
  · by_cases h2 : c = q
    · subst h2
      have e1 : pyEscChar c c = [bslash, c] := by simp [pyEscChar, h1]
      rw [e1]
      conv_lhs => rw [unreprAux.eq_def]
      simp [hbq, hqb, hq]
    · by_cases h3 : c = nlChar
      · subst h3
        have e1 : pyEscChar q nlChar = [bslash, Char.ofNat 110] := by
          simp [pyEscChar, h1, h2]
        rw [e1]
        conv_lhs => rw [unreprAux.eq_def]
        simp [hbq,
          (by decide : ¬ (Char.ofNat 110 = bslash)),
          (by decide : ¬ (Char.ofNat 110 = squote ∨ Char.ofNat 110 = dquote))]
      · by_cases h4 : c = crChar
        · subst h4
          have e1 : pyEscChar q crChar = [bslash, Char.ofNat 114] := by
            simp [pyEscChar, h1, h2, h3]
          rw [e1]
          conv_lhs => rw [unreprAux.eq_def]
          simp [hbq,
            (by decide : ¬ (Char.ofNat 114 = bslash)),
            (by decide : ¬ (Char.ofNat 114 = squote ∨ Char.ofNat 114 = dquote)),
            (by decide : ¬ (Char.ofNat 114 = Char.ofNat 110))]
        · by_cases h5 : c = tabChar
          · subst h5
            have e1 : pyEscChar q tabChar = [bslash, Char.ofNat 116] := by
              simp [pyEscChar, h1, h2, h3, h4]
            rw [e1]
            conv_lhs => rw [unreprAux.eq_def]
            simp [hbq,
              (by decide : ¬ (Char.ofNat 116 = bslash)),
              (by decide : ¬ (Char.ofNat 116 = squote ∨ Char.ofNat 116 = dquote)),
              (by decide : ¬ (Char.ofNat 116 = Char.ofNat 110)),
              (by decide : ¬ (Char.ofNat 116 = Char.ofNat 114))]
          · by_cases h6 : (c.toNat < 32 || c.toNat == 127) = true
            · have ha : c.toNat / 16 < 16 := by
                rcases Bool.or_eq_true _ _ |>.mp h6 with h7 | h7
                · have h8 : c.toNat < 32 := by simpa using h7
                  omega
                · have h8 : c.toNat = 127 := by simpa using h7
                  omega
              have hb : c.toNat % 16 < 16 := Nat.mod_lt _ (by norm_num)
              have hchar : Char.ofNat (16 * (c.toNat / 16) + c.toNat % 16) = c := by
                rw [Nat.div_add_mod]
                exact Char.ofNat_toNat c
              have e1 : pyEscChar q c = [bslash, Char.ofNat 120,
                  hexDigitChar (c.toNat / 16), hexDigitChar (c.toNat % 16)] := by
                simp only [pyEscChar, h1, h2, h3, h4, h5, h6, if_neg, if_pos,
                  if_false, if_true, ite_true, ite_false]
              rw [e1]
              conv_lhs => rw [unreprAux.eq_def]
              simp [hbq,
                (by decide : ¬ (Char.ofNat 120 = bslash)),
                (by decide : ¬ (Char.ofNat 120 = squote ∨ Char.ofNat 120 = dquote)),
                (by decide : ¬ (Char.ofNat 120 = Char.ofNat 110)),
                (by decide : ¬ (Char.ofNat 120 = Char.ofNat 114)),
                (by decide : ¬ (Char.ofNat 120 = Char.ofNat 116)),
                hexVal_hexDigitChar _ ha, hexVal_hexDigitChar _ hb, hchar]
            · have e1 : pyEscChar q c = [c] := by
                simp [pyEscChar, h1, h2, h3, h4, h5, h6]
              rw [e1]
              conv_lhs => rw [unreprAux.eq_def]
              simp [h1, h2]

/-- Decoding inverts the serialization of a whole string body: the escaped
characters followed by the closing quote and any tail decode to the original
characters and the tail. -/
theorem unreprAux_append (q : Char) (hq : q = squote ∨ q = dquote) (l rest : List Char) :
    unreprAux q ((l.map (pyEscChar q)).flatten ++ q :: rest) = some (l, rest) := by
  induction l with
  | nil =>
    conv_lhs => rw [unreprAux.eq_def]
    simp
  | cons c l ih =>
    rw [List.map_cons, List.flatten_cons, List.append_assoc, unreprAux_esc_step q hq c _, ih]
    rfl

/-- C9 ingredient: decoding a staged `identifier|sentence` line recovers the
identifier and the sentence exactly - the staged representation preserves
the literal text. -/
theorem lineDecode_encode (i s : String) :
    lineDecode (pyRepr i ++ String.singleton pipeChar ++ pyRepr s) = some (i, s) := by
  have hqi := pyQuote_cases i
  have hqs := pyQuote_cases s
  have hd : (pyRepr i ++ String.singleton pipeChar ++ pyRepr s).data
      = pyQuote i :: ((i.data.map (pyEscChar (pyQuote i))).flatten ++
          (pyQuote i :: (pipeChar :: (pyQuote s ::
            ((s.data.map (pyEscChar (pyQuote s))).flatten ++ (pyQuote s :: [])))))) := by
    simp [pyRepr, pyReprChars, String.data_append, String.singleton, List.append_assoc]
  simp only [lineDecode, hd]
  rw [unreprAux_append (pyQuote i) hqi]
  simp only [hqi, if_true, ite_true, true_or, or_true, eq_self_iff_true]
  rw [unreprAux_append (pyQuote s) hqs]
  simp [hqs]

/-- A character that is neither a newline nor a carriage return is moved
into the accumulator by `splitlinesAux`. -/
theorem splitlinesAux_step (c : Char) (hc1 : ¬ c = nlChar) (hc2 : ¬ c = crChar)
    (xs acc : List Char) :
    splitlinesAux (c :: xs) acc = splitlinesAux xs (c :: acc) := by
  cases xs with
  | nil => simp [splitlinesAux, hc1, hc2]
  | cons c2 rest2 => simp [splitlinesAux, hc1, hc2]

/-- A newline terminates the current line. -/
theorem splitlinesAux_newline (rest acc : List Char) :
    splitlinesAux (nlChar :: rest) acc = acc.reverse :: splitlinesAux rest [] := by
  cases rest with
  | nil => simp [splitlinesAux]
  | cons c2 rest2 => simp [splitlinesAux]

/-- Splitting a newline-terminated line off the front: a line of printable
characters followed by `\n` becomes one element of the split. -/
theorem splitlinesAux_line (l : List Char) (hl : ∀ c ∈ l, 32 ≤ c.toNat)
    (rest acc : List Char) :
    splitlinesAux (l ++ nlChar :: rest) acc = (acc.reverse ++ l) :: splitlinesAux rest [] := by
  induction l generalizing acc with
  | nil => simpa using splitlinesAux_newline rest acc
  | cons c l ih =>
    have h32 := hl c (List.mem_cons_self c l)
    have hc1 : ¬ c = nlChar := by
      intro h
      rw [h] at h32
      exact absurd h32 (by decide)
    have hc2 : ¬ c = crChar := by
      intro h
      rw [h] at h32
      exact absurd h32 (by decide)
    rw [List.cons_append, splitlinesAux_step c hc1 hc2,
      ih (fun d hd => hl d (List.mem_cons_of_mem c hd))]
    simp

/-- Splitting the serialized staged-input text recovers exactly the staged
lines: the serialization writes one line per record and the records contain
no embedded line terminators. -/
theorem pySplitlines_stagedContent (ss : List String) (idl : Option (List String)) :
    pySplitlines (stagedContent ss idl) = stagedLines ss idl := by
  suffices h : ∀ lines : List String, (∀ ln ∈ lines, ∀ x ∈ ln.data, 32 ≤ x.toNat) →
      (splitlinesAux ((lines.map (fun ln => ln.data ++ [nlChar])).flatten) []).map
        (fun l => (⟨l⟩ : String)) = lines by
    exact h (stagedLines ss idl) (stagedLines_ge32 ss idl)
  intro lines
  induction lines with
  | nil => intro _; simp [splitlinesAux]
  | cons ln lines ih =>
    intro hb
    rw [List.map_cons, List.flatten_cons, List.append_assoc, List.singleton_append,
      splitlinesAux_line ln.data (hb ln (List.mem_cons_self ln lines)) _ []]
    simp only [List.reverse_nil, List.nil_append, List.map_cons]
    rw [ih (fun l hl => hb l (List.mem_cons_of_mem ln hl))]

/-- When the captured stdout contains `ERROR`, its right-trimmed form is
non-empty (the letter `E` is not whitespace). -/
theorem rstrip_ne_empty_of_hasERROR (s : String) (h : hasERROR s = true) : rstrip s ≠ "" := by
  intro he
  have hmem : (Char.ofNat 69) ∈ s.data := by
    have hinf : "ERROR".data <:+: s.data := of_decide_eq_true h
    exact hinf.subset (by decide)
  have hdata : (rstrip s).data = [] := by rw [he]
  rw [rstrip] at hdata
  have h2 : s.data.reverse.dropWhile isPySpace = [] := by
    rwa [List.reverse_eq_nil_iff] at hdata
  have h3 : ∀ x ∈ s.data.reverse, isPySpace x = true := List.dropWhile_eq_nil_iff.mp h2
  have h4 := h3 (Char.ofNat 69) (List.mem_reverse.mpr hmem)
  exact absurd h4 (by decide)

/-- When the three validation checks pass, `extract_concepts` branches on
whether sentences were supplied. -/
theorem extract_reduce (mm : String) (r : Request) (w : World)
    (g1 : (r.allow_acronym_variants && r.unique_acronym_variants) = false)
    (g2 : ((r.sentences.isSome && r.filename.isSome) ||
      (r.sentences.isNone && r.filename.isNone)) = false)
    (g3 : r.file_format ∈ (["sldi", "sldiID"] : List String)) :
    extract_concepts mm r w = (match r.sentences with
      | some ss => sentencesPath mm r w ss
      | none => filenamePath mm r w) := by
  simp [extract_concepts, g1, g2, g3]

/-- The sentences-based path always raises: either the staged-file creation
fails with an I/O error, or the unbound `output_file` reference raises. -/
theorem sentencesPath_outcome (mm : String) (r : Request) (w : World) (ss : List String) :
    (sentencesPath mm r w ss).outcome = .error (.ioError "NamedTemporaryFile") ∨
      (sentencesPath mm r w ss).outcome = .error (.unboundLocalError "output_file") := by
  unfold sentencesPath
  split
  · exact Or.inl rfl
  · exact Or.inr rfl

/-- C5: the call fails with a configuration error (a raised `ValueError`,
before any staged file is created) exactly when both acronym-variant options
are set, or sentences and filename are both supplied or both absent, or the
file format is not one of the two recognized literals. -/
theorem C5_config_error_iff (mm : String) (r : Request) (w : World) :
    ((∃ msg, (extract_concepts mm r w).outcome = .error (.valueError msg)) ∧
      (extract_concepts mm r w).created = []) ↔
      ((r.allow_acronym_variants = true ∧ r.unique_acronym_variants = true) ∨
        (r.sentences ≠ none ∧ r.filename ≠ none) ∨
        (r.sentences = none ∧ r.filename = none) ∨
        r.file_format ∉ (["sldi", "sldiID"] : List String)) := by
  by_cases g1 : (r.allow_acronym_variants && r.unique_acronym_variants) = true
  · rcases Bool.and_eq_true _ _ |>.mp g1 with ⟨ha, hu⟩
    constructor
    · intro _
      exact Or.inl ⟨ha, hu⟩
    · intro _
      refine ⟨⟨"You can" ++ String.singleton squote ++
        "t use both allow_acronym_variants and unique_acronym_variants.", ?_⟩, ?_⟩ <;>
        simp [extract_concepts, g1]
  · have g1f : (r.allow_acronym_variants && r.unique_acronym_variants) = false :=
      Bool.eq_false_iff.mpr g1
    by_cases g2 : ((r.sentences.isSome && r.filename.isSome) ||
        (r.sentences.isNone && r.filename.isNone)) = true
    · constructor
      · intro _
        rcases Bool.or_eq_true _ _ |>.mp g2 with h | h
        · rcases Bool.and_eq_true _ _ |>.mp h with ⟨h1, h2⟩
          exact Or.inr (Or.inl ⟨Option.ne_none_iff_isSome.mpr h1,
            Option.ne_none_iff_isSome.mpr h2⟩)
        · rcases Bool.and_eq_true _ _ |>.mp h with ⟨h1, h2⟩
          exact Or.inr (Or.inr (Or.inl ⟨Option.isNone_iff_eq_none.mp h1,
            Option.isNone_iff_eq_none.mp h2⟩))
      · intro _
        refine ⟨⟨"You must either pass a list of sentences OR a filename.", ?_⟩, ?_⟩ <;>
          simp [extract_concepts, g1f, g2]
    · have g2f : ((r.sentences.isSome && r.filename.isSome) ||
          (r.sentences.isNone && r.filename.isNone)) = false := Bool.eq_false_iff.mpr g2
      by_cases g3 : r.file_format ∈ (["sldi", "sldiID"] : List String)
      · -- all validations pass: no configuration error is raised
        have hred := extract_reduce mm r w g1f g2f g3
        have hRHS : ¬ ((r.allow_acronym_variants = true ∧ r.unique_acronym_variants = true) ∨
            (r.sentences ≠ none ∧ r.filename ≠ none) ∨
            (r.sentences = none ∧ r.filename = none) ∨
            r.file_format ∉ (["sldi", "sldiID"] : List String)) := by
          rintro (⟨ha, hu⟩ | ⟨h1, h2⟩ | ⟨h1, h2⟩ | h4)
          · exact g1 (by rw [ha, hu]; rfl)
          · apply g2
            rw [Option.ne_none_iff_isSome.mp h1, Option.ne_none_iff_isSome.mp h2]
            rfl
          · apply g2
            rw [Option.isNone_iff_eq_none.mpr h1, Option.isNone_iff_eq_none.mpr h2]
            simp
          · exact h4 g3
        constructor
        · rintro ⟨⟨msg, hmsg⟩, hcr⟩
          exfalso
          rw [hred] at hmsg hcr
          rcases hs : r.sentences with _ | ss
          · rw [hs] at hmsg hcr
            by_cases ho : w.openInputFails = true
            · simp [filenamePath, ho] at hmsg
            · have hof : w.openInputFails = false := Bool.eq_false_iff.mpr ho
              by_cases hm : w.mkTempOutFails = true
              · simp [filenamePath, hof, hm] at hmsg
              · have hmf : w.mkTempOutFails = false := Bool.eq_false_iff.mpr hm
                simp [filenamePath, hof, hmf] at hcr
          · rw [hs] at hmsg hcr
            rcases sentencesPath_outcome mm r w ss with h | h <;>
              (rw [h] at hmsg; simp at hmsg)
        · intro hR
          exact absurd hR hRHS
      · -- invalid file format: third validation error
        constructor
        · intro _
          exact Or.inr (Or.inr (Or.inr g3))
        · intro _
          refine ⟨⟨"file_format must be either sldi or sldiID", ?_⟩, ?_⟩ <;>
            simp [extract_concepts, g1f, g2f, g3]

/-- The second validation guard is false for a filename-based request. -/
theorem guard2_false_of_filename (r : Request) (hs : r.sentences = none)
    (hf : r.filename ≠ none) :
    ((r.sentences.isSome && r.filename.isSome) ||
      (r.sentences.isNone && r.filename.isNone)) = false := by
  simp only [hs, Option.isSome_none, Bool.false_and, Option.isNone_none, Bool.true_and,
    Bool.false_or, Option.isNone_eq_false_iff]
  exact Option.ne_none_iff_isSome.mp hf

/-- The second validation guard is false for a sentences-based request. -/
theorem guard2_false_of_sentences (r : Request) (hs : r.sentences ≠ none)
    (hf : r.filename = none) :
    ((r.sentences.isSome && r.filename.isSome) ||
      (r.sentences.isNone && r.filename.isNone)) = false := by
  simp only [hf, Option.isSome_none, Bool.and_false, Option.isNone_none, Bool.and_true,
    Bool.false_or, Option.isNone_eq_false_iff]
  exact Option.ne_none_iff_isSome.mp hs

/-- C1 (code bug): a plain sentences-based request does not return the
`(concepts, error)` pair at all - `output_file` is assigned only in the
filename branch of the source, so line 155 raises `UnboundLocalError` and
the cleanup block raises it again.  The staged input file is created and
removed again; no output file is ever staged. -/
theorem C1_sentences_request_raises :
    (extract_concepts "metamap" { sentences := some ["fever"] } {}).outcome
        = .error (.unboundLocalError "output_file") ∧
      (extract_concepts "metamap" { sentences := some ["fever"] } {}).created = ["tmp_input"] ∧
      (extract_concepts "metamap" { sentences := some ["fever"] } {}).finalFiles = [] :=
  ⟨rfl, rfl, rfl⟩

/-- C2: on the filename-based path (the only path on which a child process
is ever observed), if the captured stdout contains the literal substring
`ERROR` then termination of the child is requested, the error element of the
returned pair is the captured output right-trimmed (and non-empty), and the
concepts decoded from whatever the output file contains are still returned;
if the substring is absent the error element is `None`. -/
theorem C2_error_detection (mm : String) (r : Request) (w : World)
    (hs : r.sentences = none) (hf : r.filename ≠ none)
    (g1 : (r.allow_acronym_variants && r.unique_acronym_variants) = false)
    (g3 : r.file_format ∈ (["sldi", "sldiID"] : List String))
    (hdv : validDV r)
    (ho : w.openInputFails = false) (hmo : w.mkTempOutFails = false)
    (hp : w.popenFails = false) (hr : w.readFails = false) :
    (hasERROR w.stdout = true →
      (extract_concepts mm r w).outcome =
          .ok (Corpus.load (pySplitlines w.outputContent), some (rstrip w.stdout)) ∧
        (extract_concepts mm r w).terminateRequested = true ∧
        rstrip w.stdout ≠ "") ∧
      (hasERROR w.stdout = false →
        (extract_concepts mm r w).outcome =
            .ok (Corpus.load (pySplitlines w.outputContent), none) ∧
          (extract_concepts mm r w).terminateRequested = false) := by
  have g2 := guard2_false_of_filename r hs hf
  have hred : extract_concepts mm r w = filenamePath mm r w := by
    rw [extract_reduce mm r w g1 g2 g3, hs]
  obtain ⟨cmd, hbc⟩ : ∃ cmd, buildCommandPre mm r = .ok cmd :=
    ⟨_, buildCommandPre_eq mm r hdv⟩
  constructor
  · intro hE
    refine ⟨?_, ?_, rstrip_ne_empty_of_hasERROR w.stdout hE⟩
    · rw [hred]
      simp [filenamePath, ho, hmo, pyFinally, filenameTry, hbc, hp, hr, hE, Except.map]
    · rw [hred]
      simp [filenamePath, ho, hmo, hbc, hp, hE, Except.toOption]
  · intro hE
    constructor
    · rw [hred]
      simp [filenamePath, ho, hmo, pyFinally, filenameTry, hbc, hp, hr, hE, Except.map]
    · rw [hred]
      simp [filenamePath, ho, hmo, hbc, hp, hE, Except.toOption]

/-- C3 counterexample: when creating the staged output file fails (for
example because the requested temporary directory does not exist), the
caller-supplied input file has been opened but is never closed, and the
exception propagates without any cleanup having run - the claim that on
every exit path once staging has begun the caller-supplied file is closed
before the exception propagates is false. -/
theorem C3_counterexample :
    (extract_concepts "metamap" { filename := some "notes.txt" }
        { mkTempOutFails := true }).inputOpened = true ∧
      (extract_concepts "metamap" { filename := some "notes.txt" }
        { mkTempOutFails := true }).inputClosed = false ∧
      (extract_concepts "metamap" { filename := some "notes.txt" }
        { mkTempOutFails := true }).outcome = .error (.ioError "NamedTemporaryFile") :=
  ⟨rfl, rfl, rfl⟩

/-- C3 amended: once the try/finally guard is entered (both pre-try file
operations succeeded), every staged temporary file created for the call is
deleted on every exit path, a caller-supplied input file is closed (and only
staged temporary names are ever deleted), and any exception propagates only
after this cleanup has run. -/
theorem C3_cleanup_after_guard (mm : String) (r : Request) (w : World)
    (g1 : (r.allow_acronym_variants && r.unique_acronym_variants) = false)
    (g2 : ((r.sentences.isSome && r.filename.isSome) ||
      (r.sentences.isNone && r.filename.isNone)) = false)
    (g3 : r.file_format ∈ (["sldi", "sldiID"] : List String))
    (hin : ∀ ss, r.sentences = some ss → w.mkTempInFails = false)
    (hout : r.sentences = none → w.openInputFails = false ∧ w.mkTempOutFails = false) :
    (extract_concepts mm r w).finalFiles = [] ∧
      (r.sentences = none → (extract_concepts mm r w).inputClosed = true) ∧
      (∀ f ∈ (extract_concepts mm r w).created, f = w.tmpIn ∨ f = w.tmpOut) := by
  rw [extract_reduce mm r w g1 g2 g3]
  rcases hs : r.sentences with _ | ss
  · obtain ⟨ho, hm⟩ := hout hs
    refine ⟨by simp [filenamePath, ho, hm], fun _ => by simp [filenamePath, ho, hm], ?_⟩
    intro f hf
    simp only [filenamePath, ho, hm, Bool.false_eq_true, if_false, ite_false] at hf
    right
    simpa using hf
  · have hmt := hin ss hs
    refine ⟨by simp [sentencesPath, hmt], fun hnone => Option.noConfusion hnone, ?_⟩
    intro f hf
    simp only [sentencesPath, hmt, Bool.false_eq_true, if_false, ite_false] at hf
    left
    simpa using hf

/-- C4 counterexample: an invalid data-version literal does not fail before
touching the filesystem - on the filename-based path the staged output file
is created first, and only then does command construction raise the
`ValueError`. -/
theorem C4_counterexample :
    (extract_concepts "metamap"
        { filename := some "notes.txt", mm_data_version := some "v2020" } {}).outcome
        = .error (.valueError "mm_data_version must be Base, USAbase, or NLM.") ∧
      (extract_concepts "metamap"
        { filename := some "notes.txt", mm_data_version := some "v2020" } {}).created
        = ["tmp_output"] :=
  ⟨rfl, rfl⟩

/-- C4 amended: on the filename-based path a data-version value outside the
three recognized literals raises the descriptive `ValueError`, but only
after the staged output file has been created; the staged file is removed
again by cleanup before the error propagates.  (On the sentences-based path
the validation error is superseded during cleanup by the unbound
`output_file` error.) -/
theorem C4_invalid_dv_after_staging (mm : String) (r : Request) (w : World) (v : String)
    (hs : r.sentences = none) (hf : r.filename ≠ none)
    (g1 : (r.allow_acronym_variants && r.unique_acronym_variants) = false)
    (g3 : r.file_format ∈ (["sldi", "sldiID"] : List String))
    (hdv : r.mm_data_version = some v)
    (hv : v ∉ (["Base", "USAbase", "NLM"] : List String))
    (ho : w.openInputFails = false) (hmo : w.mkTempOutFails = false) :
    (extract_concepts mm r w).outcome
        = .error (.valueError "mm_data_version must be Base, USAbase, or NLM.") ∧
      (extract_concepts mm r w).created = [w.tmpOut] ∧
      (extract_concepts mm r w).finalFiles = [] := by
  have g2 := guard2_false_of_filename r hs hf
  have hred : extract_concepts mm r w = filenamePath mm r w := by
    rw [extract_reduce mm r w g1 g2 g3, hs]
  have hbc : buildCommandPre mm r
      = .error (.valueError "mm_data_version must be Base, USAbase, or NLM.") := by
    simp [buildCommandPre, hdv, hv]
  refine ⟨?_, ?_, ?_⟩ <;>
    (rw [hred]; simp [filenamePath, ho, hmo, pyFinally, filenameTry, hbc, Except.map])

/-- C9: for a sentences-based request whose staging succeeds, the staged
input file holds exactly the serialized lines; for `["fever", "cough"]`
without identifiers the file contains exactly two lines, each the quoted
representation of one sentence; a serialized line never contains an
unescaped newline; and with identifiers each staged line encodes
`identifier|sentence` in a representation whose decoding recovers the
literal text. -/
theorem C9_staged_serialization :
    (∀ (mm : String) (r : Request) (w : World) (ss : List String),
        r.sentences = some ss → r.filename = none →
        (r.allow_acronym_variants && r.unique_acronym_variants) = false →
        r.file_format ∈ (["sldi", "sldiID"] : List String) →
        w.mkTempInFails = false → w.writeFails = false →
        (extract_concepts mm r w).stagedRaw = some (stagedContent ss r.ids)) ∧
      pySplitlines (stagedContent ["fever", "cough"] none) = [pyRepr "fever", pyRepr "cough"] ∧
      (pySplitlines (stagedContent ["fever", "cough"] none)).length = 2 ∧
      (∀ ss l, stagedLines ss (some l) =
        (l.zip ss).map (fun p => pyRepr p.1 ++ String.singleton pipeChar ++ pyRepr p.2)) ∧
      (∀ i s, lineDecode (pyRepr i ++ String.singleton pipeChar ++ pyRepr s) = some (i, s)) ∧
      (∀ s, nlChar ∉ (pyRepr s).data) := by
  refine ⟨?_, ?_, ?_, fun ss l => rfl, lineDecode_encode, pyRepr_no_newline⟩
  · intro mm r w ss hs hf g1 g3 hmt hw
    have hsne : r.sentences ≠ none := by rw [hs]; simp
    have g2 := guard2_false_of_sentences r hsne hf
    rw [extract_reduce mm r w g1 g2 g3, hs]
    simp [sentencesPath, hmt, hw]
  · rw [pySplitlines_stagedContent]
    rfl
  · rw [pySplitlines_stagedContent]
    rfl

/-- C10: when both sentences and identifiers are supplied with differing
lengths, no validation error is raised (the outcome is never a
`ValueError`); the staged input file silently holds one line per
`zip(ids, sentences)` pair, i.e. exactly `min |ids| |sentences|` lines, and
the excess entries are dropped. -/
theorem C10_zip_truncation (mm : String) (r : Request) (w : World) (ss l : List String)
    (hs : r.sentences = some ss) (hf : r.filename = none) (hid : r.ids = some l)
    (g1 : (r.allow_acronym_variants && r.unique_acronym_variants) = false)
    (g3 : r.file_format ∈ (["sldi", "sldiID"] : List String))
    (hmt : w.mkTempInFails = false) (hw : w.writeFails = false) :
    (∀ msg, (extract_concepts mm r w).outcome ≠ .error (.valueError msg)) ∧
      (extract_concepts mm r w).stagedRaw = some (stagedContent ss (some l)) ∧
      pySplitlines (stagedContent ss (some l)) = stagedLines ss (some l) ∧
      (stagedLines ss (some l)).length = min l.length ss.length := by
  have hsne : r.sentences ≠ none := by rw [hs]; simp
  have g2 := guard2_false_of_sentences r hsne hf
  have hred : extract_concepts mm r w = sentencesPath mm r w ss := by
    rw [extract_reduce mm r w g1 g2 g3, hs]
  refine ⟨?_, ?_, pySplitlines_stagedContent ss (some l), ?_⟩
  · intro msg hmsg
    rw [hred] at hmsg
    rcases sentencesPath_outcome mm r w ss with h | h <;> (rw [h] at hmsg; simp at hmsg)
  · rw [hred]
    simp [sentencesPath, hmt, hw, hid]
  · simp [stagedLines, List.length_zip]

/-- Witness for C2 at a concrete failing run. -/
theorem C2_error_detection_witness :
    (extract_concepts "metamap" { filename := some "in.txt" }
        { stdout := "ERROR: no match", outputContent := "line1" }).outcome =
        .ok (Corpus.load (pySplitlines "line1"), some (rstrip "ERROR: no match")) ∧
      (extract_concepts "metamap" { filename := some "in.txt" }
        { stdout := "ERROR: no match", outputContent := "line1" }).terminateRequested = true ∧
      rstrip "ERROR: no match" ≠ "" := by
  have h := C2_error_detection "metamap" { filename := some "in.txt" }
    { stdout := "ERROR: no match", outputContent := "line1" }
    rfl (by simp) rfl (by decide) (by unfold validDV; decide) rfl rfl rfl rfl
  exact h.1 (by decide)

/-- Witness for the amended C3 at a concrete filename-based call. -/
theorem C3_cleanup_witness :
    (extract_concepts "metamap" { filename := some "notes.txt" } {}).finalFiles = [] ∧
      (extract_concepts "metamap" { filename := some "notes.txt" } {}).inputClosed = true := by
  have h := C3_cleanup_after_guard "metamap" { filename := some "notes.txt" } {}
    rfl rfl (by decide) (fun ss hss => Option.noConfusion hss) (fun _ => ⟨rfl, rfl⟩)
  exact ⟨h.1, h.2.1 rfl⟩

/-- Witness for the amended C4 at a concrete invalid data version. -/
theorem C4_invalid_dv_witness :
    (extract_concepts "metamap"
        { filename := some "notes.txt", mm_data_version := some "v2020" } {}).created
        = ["tmp_output"] ∧
      (extract_concepts "metamap"
        { filename := some "notes.txt", mm_data_version := some "v2020" } {}).finalFiles
        = [] := by
  have h := C4_invalid_dv_after_staging "metamap"
    { filename := some "notes.txt", mm_data_version := some "v2020" } {} "v2020"
    rfl (by simp) rfl (by decide) rfl (by decide) rfl rfl
  exact ⟨h.2.1, h.2.2⟩

/-- Witness for C6 at a concrete request with identifiers. -/
theorem C6_selector_flag_witness :
    "--sldiID" ∈ (["metamap", "-N", "-Q", "4", "--sldiID", "in", "out"] : List String) ∧
      "--sldi" ∉ (["metamap", "-N", "-Q", "4", "--sldiID", "in", "out"] : List String) := by
  have h := C6_selector_flag "metamap" { sentences := some ["fever"], ids := some ["p1"] }
    "in" "out" ["metamap", "-N", "-Q", "4", "--sldiID", "in", "out"]
    (by decide) (by decide) (by decide) (by decide)
  exact ⟨h.1.mpr (Or.inl (by simp)), fun hm => (h.2.mp hm) (Or.inl (by simp))⟩

/-- Witness for C7 at a concrete request with a pruning threshold. -/
theorem C7_single_token_witness :
    ("--prune " ++ toString (10 : Int)) ∈
        (["metamap", "-N", "-Q", "4", "--sldi", "-e MSH,SNO", "--prune 10", "f.txt", "out"] :
          List String) ∧
      "--prune" ∉
        (["metamap", "-N", "-Q", "4", "--sldi", "-e MSH,SNO", "--prune 10", "f.txt", "out"] :
          List String) := by
  have h := C7_single_token_value_flags "metamap"
    { filename := some "f.txt", max_prune := some 10, exclude_sources := some ["MSH", "SNO"] }
    "f.txt" "out"
    ["metamap", "-N", "-Q", "4", "--sldi", "-e MSH,SNO", "--prune 10", "f.txt", "out"]
    (by decide) (by decide) (by decide) (by decide)
  exact h.1 10 rfl

/-- Witness for C8 at a concrete request with several flags active. -/
theorem C8_flag_order_witness :
    buildCommand "metamap"
        { sentences := some ["fever"], word_sense_disambiguation := true,
          compute_all_mappings := true, mm_data_version := some "Base" } "in" "out"
      = .ok ["metamap", "-N", "-Q", "4", "-V", "Base", "-y", "-b", "--sldi", "in", "out"] := by
  rw [C8_flag_order "metamap"
    { sentences := some ["fever"], word_sense_disambiguation := true,
      compute_all_mappings := true, mm_data_version := some "Base" } "in" "out"
    (by unfold validDV; decide)]
  decide

/-- Witness for C9 at the concrete two-sentence request. -/
theorem C9_staged_serialization_witness :
    (extract_concepts "metamap" { sentences := some ["fever", "cough"] } {}).stagedRaw
      = some (stagedContent ["fever", "cough"] none) :=
  C9_staged_serialization.1 "metamap" { sentences := some ["fever", "cough"] } {}
    ["fever", "cough"] rfl rfl rfl (by decide) rfl rfl

/-- Witness for C10 at a concrete length-mismatched request: two sentences,
one identifier, one staged line. -/
theorem C10_zip_truncation_witness :
    (extract_concepts "metamap"
        { sentences := some ["fever", "cough"], ids := some ["p1"] } {}).stagedRaw
        = some (stagedContent ["fever", "cough"] (some ["p1"])) ∧
      (stagedLines ["fever", "cough"] (some ["p1"])).length = 1 := by
  have h := C10_zip_truncation "metamap"
    { sentences := some ["fever", "cough"], ids := some ["p1"] } {}
    ["fever", "cough"] ["p1"] rfl rfl rfl rfl (by decide) rfl rfl
  exact ⟨h.2.1, h.2.2.2.trans (by decide)⟩
